import Mathlib

/-!
# Edusolve front-end: session store, route guard, HTTP error normalisation, course editor

A shallow embedding of the client-side logic of `EdusolveFE`:

* `src/stores/auth.store.js`   (getters, `setSession`, `clearSession`, `login`, `logout`)
* `src/router/index.js`        (the route table and the `beforeEach` guard)
* `src/api/http.js`            (the response-error interceptor)
* `src/composables/admin/useAdminCourseEditor.js`
                               (`nextOrder`, `load`, `upsertLesson`, `removeLesson`)

Asynchronous backend calls are modelled by passing the backend as a record of
functions returning `Except Failure _`: `.ok` is a resolved promise, `.error` a
rejected one.  A function that can throw returns the new state together with an
`Except` result.
-/

namespace Edusolve

/-! ## JavaScript helpers -/

/-- JavaScript truthiness of an optional string: `undefined`, `null` and `''` are falsy. -/
def truthy : Option String → Bool
  | none => false
  | some s => s != ""

/-- The JavaScript expression `a || b` where `a` is an optional string and `b` a string. -/
def orElseStr (a : Option String) (b : String) : String :=
  match a with
  | some s => if s != "" then s else b
  | none => b

/-! ## HTTP failures (`src/api/http.js`) -/

/-- The `errors` object of a Laravel validation response: field name ↦ messages. -/
abbrev FieldErrors := List (String × List String)

/-- A response body.  Either a JSON object, of which the interceptor reads only the
`message` and `errors` properties, or something that is not an object (for instance
an HTML error page), on which both reads give `undefined`. -/
inductive Payload where
  | object (message : Option String) (errors : Option FieldErrors)
  | text (body : String)
  deriving DecidableEq, Repr

/-- The expression `data?.message`. -/
def Payload.message? : Option Payload → Option String
  | some (.object m _) => m
  | _ => none

/-- The expression `data?.errors`. -/
def Payload.errors? : Option Payload → Option FieldErrors
  | some (.object _ e) => e
  | _ => none

/-- The object `error.response` of a failed request. -/
structure Response where
  status : Nat
  data : Option Payload
  deriving DecidableEq, Repr

/-- The object stored in `error.normalized` by the response interceptor. -/
inductive Normalized where
  | validation (message : String) (errors : FieldErrors) (status : Nat)
  | http (message : String) (status : Nat) (raw : Option Payload)
  deriving DecidableEq, Repr

/-- The property `normalized.message`. -/
def Normalized.message : Normalized → String
  | .validation m _ _ => m
  | .http m _ _ => m

/-- A rejected request: the thrown error object.  `response` is absent for a transport
failure, `normalized` is absent on an error that did not pass through the interceptor. -/
structure Failure where
  response : Option Response
  normalized : Option Normalized
  deriving DecidableEq, Repr

/-- The body of the rejection handler of `http.interceptors.response.use`: the value it
assigns to `error.normalized`. -/
def normalize (error : Failure) : Normalized :=
  let status : Nat := match error.response with
    | some r => r.status
    | none => 0
  let data : Option Payload := error.response.bind (·.data)
  match (if status = 422 then Payload.errors? data else none) with
  | some errors => .validation (orElseStr (Payload.message? data) "Validation error.") errors status
  | none =>
    .http
      (orElseStr (Payload.message? data)
        (if status = 401 then "Unauthenticated. Please login again." else "Request failed."))
      status data

/-- The rejection handler of the response interceptor: attaches `normalized` and rejects
with the same error. -/
def onRejected (error : Failure) : Failure :=
  { error with normalized := some (normalize error) }

/-! ## Auth session store (`src/stores/auth.store.js`) -/

/-- The user record of a session.  Only `role` is read by the client logic. -/
structure User where
  id : Nat
  role : Option String
  deriving DecidableEq, Repr

/-- The `localStorage` object: a key/value store of strings. -/
abbrev Storage := List (String × String)

/-- The call `localStorage.getItem(k)`. -/
def Storage.getItem (s : Storage) (k : String) : Option String :=
  (s.find? (fun kv => kv.1 == k)).map (·.2)

/-- The call `localStorage.removeItem(k)`. -/
def Storage.removeItem (s : Storage) (k : String) : Storage :=
  s.filter (fun kv => kv.1 != k)

/-- The call `localStorage.setItem(k, v)`. -/
def Storage.setItem (s : Storage) (k v : String) : Storage :=
  (k, v) :: Storage.removeItem s k

def LS_TOKEN : String := "edusolve_token"
def LS_USER : String := "edusolve_user"

/-- The state of the `auth` store together with the browser's `localStorage`. -/
structure AuthStore where
  token : String
  user : Option User
  loading : Bool
  error : String
  localStorage : Storage
  deriving DecidableEq, Repr

namespace AuthStore

/-- Getter `isAuthed: (s) => !!s.token`. -/
def isAuthed (s : AuthStore) : Bool := s.token != ""

/-- Getter `role: (s) => s.user?.role || null`. -/
def role (s : AuthStore) : Option String :=
  match s.user.bind (·.role) with
  | some r => if r != "" then some r else none
  | none => none

/-- Getter `isAdmin: (s) => s.user?.role === 'admin'`. -/
def isAdmin (s : AuthStore) : Bool := s.user.bind (·.role) == some "admin"

/-- Getter `isStudent: (s) => s.user?.role === 'student'`. -/
def isStudent (s : AuthStore) : Bool := s.user.bind (·.role) == some "student"

/-- Action `setSession(token, user)`; `stringify` stands for `JSON.stringify`. -/
def setSession (stringify : Option User → String) (token : String) (user : Option User)
    (s : AuthStore) : AuthStore :=
  { s with
    token := token
    user := user
    localStorage := (s.localStorage.setItem LS_TOKEN token).setItem LS_USER (stringify user) }

/-- Action `clearSession()`. -/
def clearSession (s : AuthStore) : AuthStore :=
  { s with
    token := ""
    user := none
    localStorage := (s.localStorage.removeItem LS_TOKEN).removeItem LS_USER }

end AuthStore

/-- The body of a successful login response: `{ token, user }`. -/
structure LoginData where
  token : String
  user : Option User
  deriving DecidableEq, Repr

/-- The backend as seen through `authApi` (`src/api/auth.api.js`). -/
structure AuthApi where
  login : String → String → Except Failure LoginData
  logout : Except Failure Unit

namespace AuthStore

/-- Action `login(email, password)`: the store afterwards and the returned user or the
re-thrown failure. -/
def login (stringify : Option User → String) (authApi : AuthApi) (email password : String)
    (s : AuthStore) : AuthStore × Except Failure (Option User) :=
  let s1 := { s with loading := true, error := "" }
  match authApi.login email password with
  | .ok data =>
    let s2 := setSession stringify data.token data.user s1
    ({ s2 with loading := false }, .ok data.user)
  | .error e =>
    let s2 := { s1 with error := orElseStr (e.normalized.map Normalized.message) "Login failed." }
    ({ s2 with loading := false }, .error e)

/-- Action `logout()`: the store afterwards and the (never failing) result. -/
def logout (authApi : AuthApi) (s : AuthStore) : AuthStore × Except Failure Unit :=
  match authApi.logout with
  | .ok _ => (clearSession s, .ok ())
  | .error _ => (clearSession s, .ok ())

end AuthStore

/-! ## Router (`src/router/index.js`) -/

/-- The `meta` object of a route record. -/
structure RouteMeta where
  requiresAuth : Bool
  role : Option String
  deriving DecidableEq, Repr

/-- A route record / navigation target: the properties read by the guard, and `redirect`
for the two redirect-only records. -/
structure Route where
  path : String
  name : Option String
  redirect : Option String
  routeMeta : Option RouteMeta
  deriving DecidableEq, Repr

/-- The expression `to.meta?.requiresAuth`. -/
def Route.requiresAuth (target : Route) : Bool :=
  match target.routeMeta with
  | some m => m.requiresAuth
  | none => false

/-- The expression `to.meta?.role`. -/
def Route.role (target : Route) : Option String := target.routeMeta.bind (·.role)

/-- The `routes` array handed to `createRouter`. -/
def routes : List Route :=
  [ { path := "/", name := none, redirect := some "/login", routeMeta := none },
    { path := "/login", name := some "login", redirect := none, routeMeta := none },
    { path := "/student/courses", name := some "student.courses", redirect := none,
      routeMeta := some { requiresAuth := true, role := some "student" } },
    { path := "/student/dashboard", name := some "student.dashboard", redirect := none,
      routeMeta := some { requiresAuth := true, role := some "student" } },
    { path := "/student/courses/:id", name := some "student.course.classroom", redirect := none,
      routeMeta := some { requiresAuth := true, role := some "student" } },
    { path := "/admin/dashboard", name := some "admin.dashboard", redirect := none,
      routeMeta := some { requiresAuth := true, role := some "admin" } },
    { path := "/admin/course/:id?", name := some "admin.course", redirect := none,
      routeMeta := some { requiresAuth := true, role := some "admin" } },
    { path := "/:pathMatch(.*)*", name := none, redirect := some "/login", routeMeta := none } ]

/-- Resolution of a named location `{ name }` against the route table. -/
def resolveName (name : String) : Option Route :=
  routes.find? (fun r => r.name == some name)

/-- What a navigation guard returns: `true`, or a named location to go to instead. -/
inductive GuardResult where
  | allow
  | redirect (name : String)
  deriving DecidableEq, Repr

/-- The guard registered with `router.beforeEach`. -/
def beforeEach (target : Route) (auth : AuthStore) : GuardResult :=
  let loginCheck : GuardResult :=
    if target.name == some "login" && auth.isAuthed then
      (if auth.isAdmin then .redirect "admin.dashboard" else .redirect "student.courses")
    else .allow
  if target.requiresAuth then
    if !auth.isAuthed then .redirect "login"
    else if truthy target.role && decide (auth.role ≠ target.role) then
      (if auth.isAdmin then .redirect "admin.dashboard" else .redirect "student.courses")
    else loginCheck
  else loginCheck

/-! ## Admin course editor (`src/composables/admin/useAdminCourseEditor.js`) -/

/-- A lesson held in the editor: `{id, course_id, title, content, order}` with an integer
`order` (an integer-valued JavaScript number, held as its value). -/
structure Lesson where
  id : Nat
  course_id : Nat
  title : String
  content : String
  order : Int
  deriving DecidableEq, Repr

/-- A lesson object in which any property may be missing: what `updateLesson` resolves
to, spread over the local entry. -/
structure LessonFields where
  id : Option Nat
  course_id : Option Nat
  title : Option String
  content : Option String
  order : Option Int
  deriving DecidableEq, Repr

/-- The object spread `{ ...old, ...updated }`: a property of `updated` wins, a property
missing from `updated` is taken from `old`. -/
def spread (old : Lesson) (updated : LessonFields) : Lesson :=
  { id := updated.id.getD old.id
    course_id := updated.course_id.getD old.course_id
    title := updated.title.getD old.title
    content := updated.content.getD old.content
    order := updated.order.getD old.order }

/-- The form payload `{ title, content, order }` sent on create and update. -/
structure LessonPayload where
  title : String
  content : String
  order : Int
  deriving DecidableEq, Repr

/-- The course object `getCourse` resolves to; `lessons` is `none` when the property is
not an array. -/
structure CourseData where
  id : Nat
  title : Option String
  description : Option String
  status : Option String
  lessons : Option (List Lesson)
  deriving DecidableEq, Repr

/-- The editable course `{id, title, description, status}`. -/
structure Course where
  id : Nat
  title : String
  description : String
  status : String
  deriving DecidableEq, Repr

/-- The backend as seen through `adminApi` (`src/api/admin.api.js`), restricted to the
calls the editor's lesson logic makes. -/
structure AdminApi where
  getCourse : Nat → Except Failure CourseData
  createLesson : Nat → LessonPayload → Except Failure Lesson
  updateLesson : Nat → LessonPayload → Except Failure LessonFields
  deleteLesson : Nat → Except Failure Unit

/-- Equality of results is decidable when equality of errors and of values is. -/
instance {ε α : Type} [DecidableEq ε] [DecidableEq α] : DecidableEq (Except ε α) :=
  fun a b =>
    match a, b with
    | .ok x, .ok y =>
      if h : x = y then isTrue (by rw [h]) else isFalse (fun h' => h (Except.ok.inj h'))
    | .error x, .error y =>
      if h : x = y then isTrue (by rw [h]) else isFalse (fun h' => h (Except.error.inj h'))
    | .ok _, .error _ => isFalse (fun h => Except.noConfusion h)
    | .error _, .ok _ => isFalse (fun h => Except.noConfusion h)

/-- An error thrown by the JavaScript engine itself. -/
inductive JsError where
  | rangeError
  deriving DecidableEq, Repr

/-- The number of low bits that a natural number `a` loses in the 53-bit significand of a
binary64 number (`0` when `a < 2 ^ 53`); `fuel` bounds the exponent. -/
def droppedBits : Nat → Nat → Nat
  | 0, _ => 0
  | fuel + 1, a => if a < 2 ^ 53 then 0 else droppedBits fuel (a / 2) + 1

/-- The binary64 number nearest to the integer `n`, ties to the even significand: the
result of a JavaScript arithmetic operation whose exact value is `n`, as long as that
result is finite (the magnitude of `n` is below `2 ^ 1024 - 2 ^ 970`). -/
def toDouble (n : Int) : Int :=
  let a := n.natAbs
  let shift := droppedBits 971 a
  if shift = 0 then n
  else
    let q := a / 2 ^ shift
    let r := a % 2 ^ shift
    let half := 2 ^ (shift - 1)
    let q' := if half < r ∨ (r = half ∧ q % 2 = 1) then q + 1 else q
    Int.sign n * ((q' * 2 ^ shift : Nat) : Int)

/-- The comparator `(a, b) => Number(a.order) - Number(b.order)`. -/
def compareOrder (a b : Lesson) : Int := a.order - b.order

/-- Insertion of `a` in front of the first element it does not compare greater than. -/
def insertSorted {α : Type} (cmp : α → α → Int) (a : α) : List α → List α
  | [] => [a]
  | b :: l => if cmp a b ≤ 0 then a :: b :: l else b :: insertSorted cmp a l

/-- The method `Array.prototype.sort(cmp)`.  ECMAScript requires the sort to be stable;
it is modelled by the stable insertion sort. -/
def jsSort {α : Type} (cmp : α → α → Int) (l : List α) : List α :=
  l.foldr (insertSorted cmp) []

/-- The method `Array.prototype.findIndex`; `none` stands for the result `-1`. -/
def findIndex {α : Type} (p : α → Bool) : List α → Option Nat
  | [] => none
  | a :: l => if p a then some 0 else (findIndex p l).map (· + 1)

/-- JavaScript truthiness of an optional numeric id: `undefined`, `null` and `0` are
falsy. -/
def truthyId : Option Nat → Bool
  | none => false
  | some n => n != 0

/-- The reactive state of one `useAdminCourseEditor(courseId)` instance. -/
structure Editor where
  loading : Bool
  saving : Bool
  error : String
  course : Option Course
  lessons : List Lesson
  deriving DecidableEq, Repr

namespace Editor

/-- The state right after `useAdminCourseEditor(courseId)` is called. -/
def init : Editor :=
  { loading := true, saving := false, error := "", course := none, lessons := [] }

/-- The computed `nextOrder`: `1` on an empty array, else
`Math.max(...lessons.map((l) => Number(l.order || 0))) + 1`.  The spread call throws a
`RangeError` when the array has more elements than the engine accepts as arguments
(`maxArguments`); `Math.max` is exact and the sum is rounded to binary64. -/
def nextOrder (maxArguments : Nat) (s : Editor) : Except JsError Int :=
  match s.lessons.map (fun l => if l.order ≠ 0 then l.order else 0) with
  | [] => .ok 1
  | x :: xs =>
    if maxArguments < (x :: xs).length then .error .rangeError
    else .ok (toDouble (xs.foldl max x + 1))

/-- The function `load()`. -/
def load (adminApi : AdminApi) (courseId : Nat) (s : Editor) : Editor :=
  let s1 := { s with loading := true, error := "" }
  match adminApi.getCourse courseId with
  | .ok c =>
    let s2 := { s1 with
      course := some
        { id := c.id
          title := c.title.getD ""
          description := c.description.getD ""
          status := c.status.getD "draft" } }
    let s3 := { s2 with
      lessons := match c.lessons with
        | some ls => jsSort compareOrder ls
        | none => [] }
    { s3 with loading := false }
  | .error e =>
    let s2 := { s1 with
      error := orElseStr (Payload.message? (e.response.bind (·.data))) "Failed to load course." }
    { s2 with loading := false }

/-- The two statements of the update branch that merge the returned lesson:
`const idx = lessons.value.findIndex((l) => l.id === editingLessonId)` and
`if (idx !== -1) lessons.value[idx] = { ...lessons.value[idx], ...updated }`. -/
def mergeById (editingLessonId : Nat) (updated : LessonFields) (lessons : List Lesson) :
    List Lesson :=
  match findIndex (fun l => l.id == editingLessonId) lessons with
  | some idx =>
    (match lessons[idx]? with
      | some old => lessons.set idx (spread old updated)
      | none => lessons)
  | none => lessons

/-- The function `upsertLesson(editingLessonId, payload)`: the state afterwards and the
result, `.error` when the awaited backend call rejects. -/
def upsertLesson (adminApi : AdminApi) (courseId : Nat) (editingLessonId : Option Nat)
    (payload : LessonPayload) (s : Editor) : Editor × Except Failure Unit :=
  let create : Editor × Except Failure Unit :=
    match adminApi.createLesson courseId payload with
    | .error e => (s, .error e)
    | .ok created => ({ s with lessons := jsSort compareOrder (s.lessons ++ [created]) }, .ok ())
  match editingLessonId with
  | some id =>
    if truthyId (some id) then
      match adminApi.updateLesson id payload with
      | .error e => (s, .error e)
      | .ok updated =>
        ({ s with lessons := jsSort compareOrder (mergeById id updated s.lessons) }, .ok ())
    else create
  | none => create

/-- The function `removeLesson(lessonId)`. -/
def removeLesson (adminApi : AdminApi) (lessonId : Nat) (s : Editor) :
    Editor × Except Failure Unit :=
  match adminApi.deleteLesson lessonId with
  | .error e => (s, .error e)
  | .ok _ => ({ s with lessons := s.lessons.filter (fun l => l.id != lessonId) }, .ok ())

end Editor

/-- One call made on the editor by the page. -/
inductive Call where
  | load
  | upsertLesson (editingLessonId : Option Nat) (payload : LessonPayload)
  | removeLesson (lessonId : Nat)

/-- The effect of one call on the editor state, the backend behaving as `adminApi`
during that call (a raised failure is dropped: only the state is followed). -/
def Editor.step (courseId : Nat) (s : Editor) (c : AdminApi × Call) : Editor :=
  match c.2 with
  | .load => Editor.load c.1 courseId s
  | .upsertLesson editingLessonId payload =>
    (Editor.upsertLesson c.1 courseId editingLessonId payload s).1
  | .removeLesson lessonId => (Editor.removeLesson c.1 lessonId s).1

/-- The editor state after a sequence of calls from the initial state. -/
def Editor.run (courseId : Nat) (calls : List (AdminApi × Call)) : Editor :=
  calls.foldl (Editor.step courseId) Editor.init

/-- Ascending by `order`. -/
def SortedByOrder (l : List Lesson) : Prop := l.Pairwise (fun a b => a.order ≤ b.order)

instance (l : List Lesson) : Decidable (SortedByOrder l) := by
  unfold SortedByOrder; infer_instance

/-! ## The specification's wording, as definitions compared with the code below -/

/-- The home of a session as the decision table words it: the admin dashboard if the
user's role is `'admin'`, otherwise the student catalog. -/
def homeOf (user : Option User) : GuardResult :=
  if user.bind (·.role) = some "admin" then .redirect "admin.dashboard"
  else .redirect "student.courses"

/-- The four-row decision table of the route guard, first match wins.  A target has a
required role when its `role` is a non-empty string; the session role is the role of the
session's user. -/
def guardTable (name : Option String) (requiresAuth : Bool) (role : Option String)
    (token : String) (user : Option User) : GuardResult :=
  if requiresAuth = true ∧ token = "" then .redirect "login"
  else if requiresAuth = true ∧ (∃ r, role = some r ∧ r ≠ "") ∧ user.bind (·.role) ≠ role then
    homeOf user
  else if name = some "login" ∧ token ≠ "" then homeOf user
  else .allow

/-- The message of a payload as the amended error taxonomy uses it: the payload is an
object and its `message` is a non-empty string. -/
def Payload.nonEmptyMessage : Option Payload → Option String
  | some (.object (some m) _) => if m = "" then none else some m
  | _ => none

/-- The classification of a failed request in the words of the (amended) error taxonomy,
by the response, which is absent for a transport failure. -/
def classify : Option Response → Normalized
  | none => .http "Request failed." 0 none
  | some r =>
    match r.data with
    | some (.object m (some errors)) =>
      if r.status = 422 then
        .validation ((Payload.nonEmptyMessage r.data).getD "Validation error.") errors 422
      else
        .http ((Payload.nonEmptyMessage r.data).getD
          (if r.status = 401 then "Unauthenticated. Please login again." else "Request failed."))
          r.status (some (.object m (some errors)))
    | data =>
      .http ((Payload.nonEmptyMessage data).getD
        (if r.status = 401 then "Unauthenticated. Please login again." else "Request failed."))
        r.status data

/-! ## Auxiliary lemmas -/

/-! ### Session role -/

theorem role_ne_iff (auth : AuthStore) (r : String) (hr : r ≠ "") :
    auth.role ≠ some r ↔ auth.user.bind (·.role) ≠ some r := by
  unfold AuthStore.role
  cases h : auth.user.bind (·.role) with
  | none => simp
  | some x =>
    by_cases hx : x = ""
    · subst hx; simp; exact fun h => hr h.symm
    · simp [hx]

/-! ### Local storage -/

theorem getItem_removeItem_self (s : Storage) (k : String) :
    (Storage.removeItem s k).getItem k = none := by
  unfold Storage.getItem Storage.removeItem
  induction s with
  | nil => rfl
  | cons kv s ih =>
    by_cases h : kv.1 = k
    · simp [List.filter_cons, h]
    · simp [List.filter_cons, List.find?_cons, h]

theorem getItem_removeItem_of_none (s : Storage) (k k' : String)
    (h : s.getItem k = none) : (Storage.removeItem s k').getItem k = none := by
  unfold Storage.getItem Storage.removeItem at *
  induction s with
  | nil => rfl
  | cons kv s ih =>
    by_cases h1 : kv.1 = k
    · simp [List.find?_cons, h1] at h
    · have h2 : (List.find? (fun kv => kv.1 == k) s).map (·.2) = none := by
        simpa [List.find?_cons, h1] using h
      by_cases h3 : kv.1 = k'
      · simpa [List.filter_cons, h3] using ih h2
      · simpa [List.filter_cons, List.find?_cons, h1, h3] using ih h2

/-! ### Error messages -/

theorem orElseStr_eq (data : Option Payload) (d : String) :
    orElseStr (Payload.message? data) d = (Payload.nonEmptyMessage data).getD d := by
  unfold orElseStr Payload.message? Payload.nonEmptyMessage
  rcases data with _ | ⟨_ | m, e⟩ | b
  · rfl
  · rfl
  · by_cases hm : m = "" <;> simp [hm]
  · rfl

/-! ### Rounding to binary64 -/

theorem droppedBits_of_lt (fuel a : Nat) (h : a < 2 ^ 53) : droppedBits fuel a = 0 := by
  cases fuel with
  | zero => rfl
  | succ f => rw [droppedBits, if_pos h]

theorem toDouble_of_lt (n : Int) (h : n.natAbs < 2 ^ 53) : toDouble n = n := by
  unfold toDouble
  simp [droppedBits_of_lt _ _ h]

/-- Adding 1 is exact when the summand lies between `-2 ^ 53` and `2 ^ 53 - 1`. -/
theorem toDouble_succ (m : Int) (hlo : -2 ^ 53 ≤ m) (hhi : m ≤ 2 ^ 53 - 1) :
    toDouble (m + 1) = m + 1 := by
  by_cases h : m + 1 = 2 ^ 53
  · rw [h]; decide
  · apply toDouble_of_lt
    have h1 : m + 1 < 2 ^ 53 := by omega
    have h2 : -(2 ^ 53 : Int) < m + 1 := by omega
    have h3 : ((m + 1).natAbs : Int) < 2 ^ 53 := by
      rw [Int.natCast_natAbs]
      exact abs_lt.2 ⟨h2, h1⟩
    exact_mod_cast h3

theorem droppedBits_pos (a : Nat) (h : 2 ^ 53 ≤ a) : droppedBits 971 a ≠ 0 := by
  rw [show (971 : Nat) = 970 + 1 from rfl, droppedBits, if_neg (Nat.not_lt.2 h)]
  exact Nat.succ_ne_zero _

theorem toDouble_even (n : Int) (h : 2 ^ 53 ≤ n.natAbs) : 2 ∣ toDouble n := by
  unfold toDouble
  have hs := droppedBits_pos _ h
  simp only [hs, if_false]
  obtain ⟨k, hk⟩ := Nat.exists_eq_succ_of_ne_zero hs
  rw [hk]
  apply Dvd.dvd.mul_left
  rw [Nat.succ_eq_add_one, pow_succ, ← Nat.mul_assoc, Nat.cast_mul]
  exact Dvd.intro_left _ rfl

/-- Outside the range the sum is never exact: for a binary64 integer `m` below `-2 ^ 53`
or at least `2 ^ 53`, adding 1 does not give `m + 1`. -/
theorem toDouble_succ_ne (m : Int) (hm : toDouble m = m)
    (hout : m < -2 ^ 53 ∨ 2 ^ 53 ≤ m) : toDouble (m + 1) ≠ m + 1 := by
  have habs : 2 ^ 53 ≤ m.natAbs := by
    have : (2 ^ 53 : Int) ≤ |m| := by
      rcases hout with h | h
      · exact le_trans (by omega) (neg_le_abs m)
      · exact le_trans h (le_abs_self m)
    rw [← Int.natCast_natAbs] at this
    exact_mod_cast this
  have heven : 2 ∣ m := hm ▸ toDouble_even m habs
  have habs' : 2 ^ 53 ≤ (m + 1).natAbs := by
    have : (2 ^ 53 : Int) ≤ |m + 1| := by
      rcases hout with h | h
      · exact le_trans (by omega) (neg_le_abs (m + 1))
      · exact le_trans (by omega) (le_abs_self (m + 1))
    rw [← Int.natCast_natAbs] at this
    exact_mod_cast this
  intro heq
  have h2 : 2 ∣ m + 1 := heq ▸ toDouble_even (m + 1) habs'
  omega

/-! ### `Math.max` over a non-empty list -/

theorem foldl_max_ge (xs : List Int) (x : Int) :
    x ≤ xs.foldl max x ∧ ∀ y ∈ xs, y ≤ xs.foldl max x := by
  induction xs generalizing x with
  | nil => simp
  | cons a xs ih =>
    obtain ⟨h1, h2⟩ := ih (max x a)
    refine ⟨le_trans (le_max_left x a) h1, ?_⟩
    intro y hy
    rcases List.mem_cons.1 hy with rfl | hy
    · exact le_trans (le_max_right x y) h1
    · exact h2 y hy

theorem foldl_max_mem (xs : List Int) (x : Int) : xs.foldl max x ∈ x :: xs := by
  induction xs generalizing x with
  | nil => simp
  | cons a xs ih =>
    have := ih (max x a)
    rw [List.foldl_cons]
    rcases List.mem_cons.1 this with h | h
    · rw [h]
      rcases max_choice x a with hm | hm
      · rw [hm]; exact List.mem_cons_self _ _
      · rw [hm]; exact List.mem_cons_of_mem _ (List.mem_cons_self _ _)
    · exact List.mem_cons_of_mem _ (List.mem_cons_of_mem _ h)

theorem order_or_zero (l : Lesson) : (if l.order ≠ 0 then l.order else 0) = l.order := by
  by_cases h : l.order = 0 <;> simp [h]

/-! ### The stable sort -/

theorem insertSorted_perm {α : Type} (cmp : α → α → Int) (a : α) (l : List α) :
    (insertSorted cmp a l).Perm (a :: l) := by
  induction l with
  | nil => exact List.Perm.refl _
  | cons b l ih =>
    unfold insertSorted
    split_ifs
    · exact List.Perm.refl _
    · exact (List.Perm.cons b ih).trans (List.Perm.swap a b l)

theorem jsSort_perm {α : Type} (cmp : α → α → Int) (l : List α) : (jsSort cmp l).Perm l := by
  induction l with
  | nil => exact List.Perm.refl _
  | cons a l ih =>
    exact (insertSorted_perm cmp a _).trans (List.Perm.cons a ih)

theorem insertSorted_sorted (a : Lesson) (l : List Lesson) (h : SortedByOrder l) :
    SortedByOrder (insertSorted compareOrder a l) := by
  induction l with
  | nil => simp [insertSorted, SortedByOrder]
  | cons b l ih =>
    unfold SortedByOrder at h ih ⊢
    rw [List.pairwise_cons] at h
    unfold insertSorted
    split_ifs with hc
    · have hab : a.order ≤ b.order := by unfold compareOrder at hc; omega
      refine List.pairwise_cons.2 ⟨?_, List.pairwise_cons.2 h⟩
      intro c hcm
      rcases List.mem_cons.1 hcm with rfl | hcm
      · exact hab
      · exact le_trans hab (h.1 c hcm)
    · have hba : b.order ≤ a.order := by unfold compareOrder at hc; omega
      refine List.pairwise_cons.2 ⟨?_, ih h.2⟩
      intro c hcm
      rcases List.mem_cons.1 ((insertSorted_perm compareOrder a l).subset hcm) with rfl | hcm
      · exact hba
      · exact h.1 c hcm

theorem jsSort_sorted (l : List Lesson) : SortedByOrder (jsSort compareOrder l) := by
  induction l with
  | nil => simp [jsSort, SortedByOrder]
  | cons a l ih => exact insertSorted_sorted a _ ih

theorem insertSorted_filter (k : Int) (a : Lesson) (l : List Lesson) :
    (insertSorted compareOrder a l).filter (fun x => x.order == k)
      = (a :: l).filter (fun x => x.order == k) := by
  induction l with
  | nil => rfl
  | cons b l ih =>
    unfold insertSorted
    split_ifs with hc
    · rfl
    · have hba : b.order < a.order := by unfold compareOrder at hc; omega
      rw [List.filter_cons, ih]
      by_cases hb : b.order = k
      · have ha : a.order ≠ k := by omega
        simp [List.filter_cons, hb, ha]
      · simp [List.filter_cons, hb]

theorem jsSort_filter (k : Int) (l : List Lesson) :
    (jsSort compareOrder l).filter (fun x => x.order == k) = l.filter (fun x => x.order == k) := by
  induction l with
  | nil => rfl
  | cons a l ih =>
    show (insertSorted compareOrder a (jsSort compareOrder l)).filter _ = _
    rw [insertSorted_filter, List.filter_cons, List.filter_cons, ih]

/-- Two lists sorted by `order` in which the lessons of each `order` form the same
sequence are equal. -/
theorem sorted_stable_unique (l₁ l₂ : List Lesson) (h₁ : SortedByOrder l₁)
    (h₂ : SortedByOrder l₂)
    (hf : ∀ k : Int, l₁.filter (fun x => x.order == k) = l₂.filter (fun x => x.order == k)) :
    l₁ = l₂ := by
  induction l₁ generalizing l₂ with
  | nil =>
    cases l₂ with
    | nil => rfl
    | cons b t => have := hf b.order; simp at this
  | cons a t₁ ih =>
    cases l₂ with
    | nil => have := hf a.order; simp at this
    | cons b t₂ =>
      unfold SortedByOrder at h₁ h₂
      rw [List.pairwise_cons] at h₁ h₂
      have hb_mem : b ∈ a :: t₁ := by
        have : b ∈ (a :: t₁).filter (fun x => x.order == b.order) := by
          rw [hf b.order]; simp
        exact (List.mem_filter.1 this).1
      have ha_mem : a ∈ b :: t₂ := by
        have : a ∈ (b :: t₂).filter (fun x => x.order == a.order) := by
          rw [← hf a.order]; simp
        exact (List.mem_filter.1 this).1
      have hab : a.order ≤ b.order := by
        rcases List.mem_cons.1 hb_mem with h | h
        · rw [h]
        · exact h₁.1 b h
      have hba : b.order ≤ a.order := by
        rcases List.mem_cons.1 ha_mem with h | h
        · rw [h]
        · exact h₂.1 a h
      have hk : a.order = b.order := le_antisymm hab hba
      have h0 := hf a.order
      simp [List.filter_cons, hk] at h0
      obtain ⟨rfl, _⟩ := h0
      congr 1
      apply ih t₂ h₁.2 h₂.2
      intro k
      have hk' := hf k
      by_cases hak : a.order = k
      · simpa [List.filter_cons, hak] using hk'
      · simpa [List.filter_cons, hak] using hk'

/-! ### Merging an updated lesson -/

theorem mergeById_cons (id : Nat) (u : LessonFields) (a : Lesson) (l : List Lesson) :
    Editor.mergeById id u (a :: l)
      = if a.id = id then spread a u :: l else a :: Editor.mergeById id u l := by
  unfold Editor.mergeById
  by_cases h : a.id = id
  · simp [findIndex, h]
  · simp only [findIndex, beq_iff_eq, h, if_false]
    cases hf : findIndex (fun l => l.id == id) l with
    | none => simp
    | some idx =>
      simp only [Option.map_some', List.getElem?_cons_succ]
      cases l[idx]? <;> simp

theorem mergeById_length (id : Nat) (u : LessonFields) (l : List Lesson) :
    (Editor.mergeById id u l).length = l.length := by
  induction l with
  | nil => rfl
  | cons a l ih =>
    rw [mergeById_cons]
    split_ifs <;> simp [ih]

theorem mergeById_getElem? (id : Nat) (u : LessonFields) (l : List Lesson) :
    ∀ (i : Nat) (x : Lesson), l[i]? = some x →
      ((x.id = id ∧ (∀ j m, j < i → l[j]? = some m → m.id ≠ id)) →
          (Editor.mergeById id u l)[i]? = some (spread x u))
      ∧ (¬ (x.id = id ∧ (∀ j m, j < i → l[j]? = some m → m.id ≠ id)) →
          (Editor.mergeById id u l)[i]? = some x) := by
  induction l with
  | nil => intro i x h; simp at h
  | cons a l ih =>
    intro i x h
    rw [mergeById_cons]
    by_cases ha : a.id = id
    · rw [if_pos ha]
      cases i with
      | zero =>
        simp only [List.getElem?_cons_zero, Option.some.injEq] at h
        subst h
        refine ⟨fun _ => by simp, fun hn => absurd ⟨ha, ?_⟩ hn⟩
        intro j m hj
        exact absurd hj (Nat.not_lt_zero j)
      | succ i =>
        simp only [List.getElem?_cons_succ] at h ⊢
        refine ⟨?_, fun _ => h⟩
        rintro ⟨_, hall⟩
        exact absurd ha (hall 0 a (Nat.succ_pos i) (by simp))
    · rw [if_neg ha]
      cases i with
      | zero =>
        simp only [List.getElem?_cons_zero, Option.some.injEq] at h
        subst h
        exact ⟨fun hc => absurd hc.1 ha, fun _ => by simp⟩
      | succ i =>
        simp only [List.getElem?_cons_succ] at h ⊢
        have hiff : (x.id = id ∧ ∀ j m, j < i → l[j]? = some m → m.id ≠ id)
            ↔ (x.id = id ∧ ∀ j m, j < i + 1 → (a :: l)[j]? = some m → m.id ≠ id) := by
          constructor
          · rintro ⟨hx, hall⟩
            refine ⟨hx, ?_⟩
            intro j m hj hm
            cases j with
            | zero =>
              simp only [List.getElem?_cons_zero, Option.some.injEq] at hm
              subst hm; exact ha
            | succ j =>
              simp only [List.getElem?_cons_succ] at hm
              exact hall j m (Nat.lt_of_succ_lt_succ hj) hm
          · rintro ⟨hx, hall⟩
            refine ⟨hx, ?_⟩
            intro j m hj hm
            exact hall (j + 1) m (Nat.succ_lt_succ hj) (by simpa using hm)
        exact ⟨fun hc => (ih i x h).1 (hiff.2 hc), fun hc => (ih i x h).2 (fun h' => hc (hiff.1 h'))⟩

theorem mergeById_of_absent (id : Nat) (u : LessonFields) (l : List Lesson)
    (h : ∀ x ∈ l, x.id ≠ id) : Editor.mergeById id u l = l := by
  induction l with
  | nil => rfl
  | cons a l ih =>
    rw [mergeById_cons, if_neg (h a (List.mem_cons_self _ _)),
      ih (fun x hx => h x (List.mem_cons_of_mem _ hx))]

/-! ## Route guard -/

/-- Claim C1: for every target route and every session the route guard equals the
four-row decision table, first match wins: (1) the target requires auth and the token is
empty gives redirect to login; (2) else the target requires auth, has a required role and
the session role differs from it gives redirect to the user's home; (3) else the target
is the login route and the token is non-empty gives redirect to the user's home;
(4) otherwise allow.  In particular a session with an empty token is sent to login on
every route that requires auth, whatever its path, name or role. -/
theorem beforeEach_eq_guardTable (target : Route) (auth : AuthStore) :
    beforeEach target auth
        = guardTable target.name target.requiresAuth target.role auth.token auth.user
      ∧ (target.requiresAuth = true → auth.token = "" →
          beforeEach target auth = .redirect "login"
            ∧ beforeEach target auth ≠ .allow) := by
  constructor
  · unfold beforeEach guardTable homeOf AuthStore.isAuthed AuthStore.isAdmin
    cases hreq : target.requiresAuth <;> by_cases htok : auth.token = "" <;>
      cases hrole : target.role with
      | none => simp [htok, truthy]
      | some r =>
        by_cases hr : r = ""
        · simp [htok, truthy, hr]
        · have := role_ne_iff auth r hr
          by_cases hne : auth.user.bind (·.role) = some r <;>
            simp_all [truthy]
  · intro hreq htok
    simp [beforeEach, hreq, AuthStore.isAuthed, htok]

/-- The spec's three guard examples, through the decision-table theorem: an
unauthenticated session on an admin route goes to login; an admin on a student route goes
to the admin dashboard; a student on the login route goes to the student catalog. -/
theorem beforeEach_eq_guardTable_witness :
    guardTable (some "admin.course") true (some "admin") "" none = .redirect "login"
      ∧ guardTable (some "student.dashboard") true (some "student") "t"
          (some ⟨1, some "admin"⟩) = .redirect "admin.dashboard"
      ∧ beforeEach ⟨"/login", some "login", none, none⟩
          ⟨"t", some ⟨2, some "student"⟩, false, "", []⟩ = .redirect "student.courses" := by
  refine ⟨by decide, by decide, ?_⟩
  rw [(beforeEach_eq_guardTable _ _).1]
  decide

/-- Claim C10, as stated, fails: with a non-empty token and no user, the guard sends the
login route to `student.courses`, and the guard evaluated on the `student.courses` route
with the same session redirects again instead of allowing. -/
theorem guard_redirect_counterexample :
    (⟨"/login", some "login", none, none⟩ : Route) ∈ routes
      ∧ beforeEach ⟨"/login", some "login", none, none⟩ ⟨"t", none, false, "", []⟩
          = .redirect "student.courses"
      ∧ resolveName "student.courses"
          = some ⟨"/student/courses", some "student.courses", none,
              some ⟨true, some "student"⟩⟩
      ∧ beforeEach
          ⟨"/student/courses", some "student.courses", none, some ⟨true, some "student"⟩⟩
          ⟨"t", none, false, "", []⟩
          = .redirect "student.courses"
      ∧ beforeEach
          ⟨"/student/courses", some "student.courses", none, some ⟨true, some "student"⟩⟩
          ⟨"t", none, false, "", []⟩
          ≠ .allow := by
  decide

/-- Claim C10, amended: for every session whose token is empty or whose user's role is
`'admin'` or `'student'`, and every target (in particular every route of the route
table), if the guard returns a redirect to a named route, that name resolves in the route
table and the guard evaluated on the resolved route with the same session returns
allow. -/
theorem guard_redirect_allowed (auth : AuthStore)
    (h : auth.token = "" ∨ auth.isAdmin = true ∨ auth.isStudent = true)
    (target : Route) (name : String)
    (hr : beforeEach target auth = .redirect name) :
    ∃ r, resolveName name = some r ∧ beforeEach r auth = .allow := by
  have hcases : name = "login" ∧ auth.token = ""
      ∨ name = "admin.dashboard" ∧ auth.token ≠ "" ∧ auth.isAdmin = true
      ∨ name = "student.courses" ∧ auth.token ≠ "" ∧ auth.isAdmin = false := by
    revert hr
    unfold beforeEach AuthStore.isAuthed
    by_cases htok : auth.token = "" <;> cases hadm : auth.isAdmin <;>
      simp only [htok] <;> split_ifs <;> simp_all
  rcases hcases with ⟨rfl, htok⟩ | ⟨rfl, htok, hadm⟩ | ⟨rfl, htok, hadm⟩
  · refine ⟨_, rfl, ?_⟩
    simp [beforeEach, Route.requiresAuth, AuthStore.isAuthed, htok]
  · refine ⟨_, rfl, ?_⟩
    have h1 : auth.user.bind (·.role) = some "admin" := by
      simpa [AuthStore.isAdmin] using hadm
    simp [beforeEach, Route.requiresAuth, Route.role, AuthStore.isAuthed, htok, truthy,
      AuthStore.role, h1]
  · refine ⟨_, rfl, ?_⟩
    have h1 : auth.user.bind (·.role) = some "student" := by
      rcases h with h | h | h
      · exact absurd h htok
      · rw [hadm] at h; cases h
      · simpa [AuthStore.isStudent] using h
    simp [beforeEach, Route.requiresAuth, Route.role, AuthStore.isAuthed, htok, truthy,
      AuthStore.role, h1]

/-- Witness for C10 amended: a student session on an admin route of the table is
redirected to `student.courses`, and the guard allows that route. -/
theorem guard_redirect_allowed_witness :
    (⟨"/admin/dashboard", some "admin.dashboard", none, some ⟨true, some "admin"⟩⟩ : Route)
        ∈ routes
      ∧ beforeEach
          ⟨"/admin/dashboard", some "admin.dashboard", none, some ⟨true, some "admin"⟩⟩
          ⟨"t", some ⟨2, some "student"⟩, false, "", []⟩ = .redirect "student.courses"
      ∧ ∃ r, resolveName "student.courses" = some r
          ∧ beforeEach r ⟨"t", some ⟨2, some "student"⟩, false, "", []⟩ = .allow :=
  ⟨by decide, by decide,
    guard_redirect_allowed ⟨"t", some ⟨2, some "student"⟩, false, "", []⟩ (by decide)
      ⟨"/admin/dashboard", some "admin.dashboard", none, some ⟨true, some "admin"⟩⟩
      "student.courses" (by decide)⟩

/-! ## Auth session store -/

/-- Claim C2: for every session state and every outcome of the backend logout call, after
`logout()` the token is empty, the user is null, the token entry and the user entry of
the durable storage are both absent, and `logout()` returns normally. -/
theorem logout_clears_session (authApi : AuthApi) (s : AuthStore) :
    (AuthStore.logout authApi s).1.token = ""
      ∧ (AuthStore.logout authApi s).1.user = none
      ∧ (AuthStore.logout authApi s).1.localStorage.getItem LS_TOKEN = none
      ∧ (AuthStore.logout authApi s).1.localStorage.getItem LS_USER = none
      ∧ (AuthStore.logout authApi s).2 = .ok () := by
  have h : AuthStore.logout authApi s = (AuthStore.clearSession s, .ok ()) := by
    unfold AuthStore.logout
    cases authApi.logout <;> rfl
  rw [h]
  refine ⟨rfl, rfl, ?_, ?_, rfl⟩
  · exact getItem_removeItem_of_none _ _ _ (getItem_removeItem_self _ _)
  · exact getItem_removeItem_self _ _

/-- The spec's logout example: the backend call rejects on a logged-in session with both
storage entries present; the session is cleared, the two entries are gone and the call
returns normally. -/
theorem logout_clears_session_witness :
    (AuthStore.logout ⟨fun _ _ => .error ⟨none, none⟩, .error ⟨some ⟨500, none⟩, none⟩⟩
        ⟨"t", some ⟨1, some "admin"⟩, false, "",
          [("edusolve_token", "t"), ("edusolve_user", "u"), ("theme", "dark")]⟩).1
      = ⟨"", none, false, "", [("theme", "dark")]⟩
    ∧ (AuthStore.logout ⟨fun _ _ => .error ⟨none, none⟩, .error ⟨some ⟨500, none⟩, none⟩⟩
        ⟨"t", some ⟨1, some "admin"⟩, false, "",
          [("edusolve_token", "t"), ("edusolve_user", "u"), ("theme", "dark")]⟩).2
      = .ok () :=
  ⟨by decide,
    (logout_clears_session ⟨fun _ _ => .error ⟨none, none⟩, .error ⟨some ⟨500, none⟩, none⟩⟩
      ⟨"t", some ⟨1, some "admin"⟩, false, "",
        [("edusolve_token", "t"), ("edusolve_user", "u"), ("theme", "dark")]⟩).2.2.2.2⟩

/-- Claim C3: for every prior state and every failure `e` of the backend login call,
`login` re-raises `e`, sets `error` to the normalized message of `e`, or to
"Login failed." when `e` has no normalized part or its message is empty, leaves token,
user and the durable storage unchanged and leaves `loading` false; and `loading` is false
after every completed login, successful or not. -/
theorem login_failure_sets_error (stringify : Option User → String) (authApi : AuthApi)
    (email password : String) (s : AuthStore) :
    (∀ e, authApi.login email password = .error e →
        (AuthStore.login stringify authApi email password s).2 = .error e
        ∧ (AuthStore.login stringify authApi email password s).1.error
            = (match e.normalized with
                | some n => if n.message = "" then "Login failed." else n.message
                | none => "Login failed.")
        ∧ (AuthStore.login stringify authApi email password s).1.token = s.token
        ∧ (AuthStore.login stringify authApi email password s).1.user = s.user
        ∧ (AuthStore.login stringify authApi email password s).1.localStorage = s.localStorage
        ∧ (AuthStore.login stringify authApi email password s).1.loading = false)
      ∧ (AuthStore.login stringify authApi email password s).1.loading = false := by
  constructor
  · intro e he
    unfold AuthStore.login
    rw [he]
    refine ⟨rfl, ?_, rfl, rfl, rfl, rfl⟩
    simp only [orElseStr]
    cases hn : e.normalized with
    | none => rfl
    | some n => by_cases hm : n.message = "" <;> simp [hm]
  · unfold AuthStore.login
    cases authApi.login email password <;> rfl

/-- Witness for C3: a login rejected with a normalized 401 on a store that was loading
with a stale error; the message is taken over and the session is untouched. -/
theorem login_failure_sets_error_witness :
    (AuthStore.login (fun _ => "null")
        ⟨fun _ _ => .error ⟨some ⟨401, none⟩,
            some (.http "Unauthenticated. Please login again." 401 none)⟩, .ok ()⟩
        "a@b.c" "pw" ⟨"", none, true, "old", []⟩).1
      = ⟨"", none, false, "Unauthenticated. Please login again.", []⟩
    ∧ (AuthStore.login (fun _ => "null")
        ⟨fun _ _ => .error ⟨some ⟨401, none⟩,
            some (.http "Unauthenticated. Please login again." 401 none)⟩, .ok ()⟩
        "a@b.c" "pw" ⟨"", none, true, "old", []⟩).2
      = .error ⟨some ⟨401, none⟩, some (.http "Unauthenticated. Please login again." 401 none)⟩ :=
  ⟨by decide,
    ((login_failure_sets_error (fun _ => "null")
        ⟨fun _ _ => .error ⟨some ⟨401, none⟩,
            some (.http "Unauthenticated. Please login again." 401 none)⟩, .ok ()⟩
        "a@b.c" "pw" ⟨"", none, true, "old", []⟩).1 _ rfl).1⟩

/-! ## HTTP gateway -/

/-- Claim C4, as stated, fails: a payload whose `message` is present but empty does not
get that message.  A 500 response with `{ message: '' }` is normalized to the HttpError
message "Request failed.", and a 422 response with a field-errors map and
`{ message: '' }` to the ValidationError message "Validation error.". -/
theorem normalize_empty_message_counterexample :
    Payload.message? (some (.object (some "") none)) = some ""
      ∧ normalize ⟨some ⟨500, some (.object (some "") none)⟩, none⟩
          = .http "Request failed." 500 (some (.object (some "") none))
      ∧ normalize ⟨some ⟨500, some (.object (some "") none)⟩, none⟩
          ≠ .http "" 500 (some (.object (some "") none))
      ∧ normalize ⟨some ⟨422, some (.object (some "") (some [("email", ["required"])]))⟩, none⟩
          = .validation "Validation error." [("email", ["required"])] 422 := by
  decide

/-- Claim C4, amended: for every failure the normalization equals the classification in
which the payload message counts only when it is non-empty (the rejection handler
attaches exactly this classification to the error it re-raises): status 422 with a
field-errors map gives a ValidationError with that map, status 422 and the non-empty
payload message or "Validation error."; anything else gives an HttpError with the status,
the raw payload and the non-empty payload message, else
"Unauthenticated. Please login again." for status 401, else "Request failed."; no
response gives HttpError with status 0 and "Request failed.".  Every failure gets exactly
one of the two types. -/
theorem normalize_eq_classify (error : Failure) :
    normalize error = classify error.response
      ∧ onRejected error = { error with normalized := some (classify error.response) }
      ∧ (error.response = none → normalize error = .http "Request failed." 0 none)
      ∧ ((∃ m e s, normalize error = .validation m e s)
          ↔ ¬ ∃ m s raw, normalize error = .http m s raw) := by
  have h : normalize error = classify error.response := by
    unfold normalize classify
    simp only [orElseStr_eq]
    rcases error with ⟨_ | ⟨status, data⟩, n⟩
    · rfl
    · rcases data with _ | ⟨m, _ | e⟩ | b <;> by_cases hs : status = 422 <;>
        simp [hs, Payload.errors?]
  refine ⟨h, ?_, ?_, ?_⟩
  · unfold onRejected
    rw [h]
  · intro hr
    rw [h, hr]
    rfl
  · cases normalize error <;> simp

/-- The spec's gateway examples: status 422 with `errors: {email: ["required"]}` is a
ValidationError with that map; status 401 with no message is the HttpError
"Unauthenticated. Please login again.". -/
theorem normalize_eq_classify_witness :
    normalize ⟨some ⟨422, some (.object none (some [("email", ["required"])]))⟩, none⟩
        = .validation "Validation error." [("email", ["required"])] 422
      ∧ normalize ⟨some ⟨401, some (.object none none)⟩, none⟩
        = .http "Unauthenticated. Please login again." 401 (some (.object none none)) := by
  rw [(normalize_eq_classify _).1, (normalize_eq_classify _).1]
  decide

/-! ## Course editor -/

/-- Claim C5, as stated, fails: numbers are binary64.  With the single integer order
`2 ^ 53` the code returns `2 ^ 53` itself, neither the maximum plus 1 nor greater than the
existing order; with the single integer order `-(2 ^ 53) - 2` it returns `-(2 ^ 53)`, not
the maximum plus 1. -/
theorem nextOrder_rounding_counterexample :
    Editor.nextOrder 65536 ⟨false, false, "", none, [⟨1, 1, "a", "", 9007199254740992⟩]⟩
        = .ok 9007199254740992
      ∧ Editor.nextOrder 65536 ⟨false, false, "", none, [⟨1, 1, "a", "", 9007199254740992⟩]⟩
        ≠ .ok (9007199254740992 + 1)
      ∧ (¬ ∃ n : Int,
          Editor.nextOrder 65536
              ⟨false, false, "", none, [⟨1, 1, "a", "", 9007199254740992⟩]⟩ = .ok n
            ∧ (⟨1, 1, "a", "", 9007199254740992⟩ : Lesson).order < n)
      ∧ Editor.nextOrder 65536 ⟨false, false, "", none, [⟨1, 1, "a", "", -9007199254740994⟩]⟩
        = .ok (-9007199254740992)
      ∧ Editor.nextOrder 65536 ⟨false, false, "", none, [⟨1, 1, "a", "", -9007199254740994⟩]⟩
        ≠ .ok (-9007199254740994 + 1) := by
  have h : Editor.nextOrder 65536
      ⟨false, false, "", none, [⟨1, 1, "a", "", 9007199254740992⟩]⟩
        = .ok 9007199254740992 := by decide
  refine ⟨h, by decide, ?_, by decide, by decide⟩
  rintro ⟨n, hn, hlt⟩
  rw [h] at hn
  have hn' : (9007199254740992 : Int) = n := Except.ok.inj hn
  rw [← hn'] at hlt
  exact absurd hlt (lt_irrefl _)

/-- Claim C5, amended: for every lesson sequence with integer orders that the engine can
spread into one call, `nextOrder` is 1 on the empty sequence; on a non-empty one whose
maximum order `m` satisfies `-2 ^ 53 ≤ m ≤ 2 ^ 53 - 1` it is `m + 1` (the order of a lesson
that no lesson exceeds, plus 1), hence strictly greater than every existing lesson's
order; and it depends on the lesson sequence only. -/
theorem nextOrder_eq_max_succ (maxArguments : Nat) (s : Editor)
    (hlen : s.lessons.length ≤ maxArguments)
    (hmax : ∀ l ∈ s.lessons, (∀ m ∈ s.lessons, m.order ≤ l.order) →
      -2 ^ 53 ≤ l.order ∧ l.order ≤ 2 ^ 53 - 1) :
    (s.lessons = [] → s.nextOrder maxArguments = .ok 1)
      ∧ (s.lessons ≠ [] →
          ∃ l ∈ s.lessons, (∀ m ∈ s.lessons, m.order ≤ l.order)
            ∧ s.nextOrder maxArguments = .ok (l.order + 1))
      ∧ (∀ l ∈ s.lessons, ∃ n, s.nextOrder maxArguments = .ok n ∧ l.order < n)
      ∧ (∀ s' : Editor, s'.lessons = s.lessons →
          s'.nextOrder maxArguments = s.nextOrder maxArguments) := by
  have hmap : s.lessons.map (fun l => if l.order ≠ 0 then l.order else 0)
      = s.lessons.map (·.order) := List.map_congr_left (fun l _ => order_or_zero l)
  have key : s.lessons ≠ [] →
      ∃ l ∈ s.lessons, (∀ m ∈ s.lessons, m.order ≤ l.order)
        ∧ s.nextOrder maxArguments = .ok (l.order + 1) := by
    intro hne
    unfold Editor.nextOrder
    rw [hmap]
    cases hl : s.lessons with
    | nil => exact absurd hl hne
    | cons a ls =>
      have hlen' : ¬ maxArguments < (a.order :: ls.map (·.order)).length := by
        have : (a :: ls).length ≤ maxArguments := hl ▸ hlen
        simp only [List.length_cons, List.length_map] at this ⊢
        omega
      simp only [List.map_cons, if_neg hlen']
      have hmem := foldl_max_mem (ls.map (·.order)) a.order
      have hge := foldl_max_ge (ls.map (·.order)) a.order
      have hmem' : List.foldl max a.order (ls.map (·.order)) ∈ (a :: ls).map (·.order) := by
        simpa using hmem
      obtain ⟨l, hl1, hl2⟩ := List.mem_map.1 hmem'
      have hall : ∀ m ∈ a :: ls, m.order ≤ l.order := by
        intro m hm
        rw [hl2]
        rcases List.mem_cons.1 hm with rfl | hm
        · exact hge.1
        · exact hge.2 _ (List.mem_map.2 ⟨m, hm, rfl⟩)
      have hb := hmax l (hl ▸ hl1) (fun m hm => hall m (hl ▸ hm))
      refine ⟨l, hl1, hall, ?_⟩
      rw [← hl2, toDouble_succ _ hb.1 hb.2]
  refine ⟨?_, key, ?_, ?_⟩
  · intro h; simp [Editor.nextOrder, h]
  · intro l hl
    obtain ⟨m, _, hm, heq⟩ := key (List.ne_nil_of_mem hl)
    exact ⟨m.order + 1, heq, Int.lt_add_one_iff.2 (hm l hl)⟩
  · intro s' h
    simp [Editor.nextOrder, h]

/-- Witness for C5 amended: the spec's examples (`[]` gives 1, orders `[3, 1]` give 4) and
the two ends of the range (`2 ^ 53 - 1` gives `2 ^ 53`, `-(2 ^ 53)` gives
`-(2 ^ 53) + 1`). -/
theorem nextOrder_eq_max_succ_witness :
    Editor.nextOrder 65536 Editor.init = .ok 1
      ∧ Editor.nextOrder 65536
          ⟨false, false, "", none, [⟨1, 1, "a", "", 3⟩, ⟨2, 1, "b", "", 1⟩]⟩ = .ok 4
      ∧ Editor.nextOrder 65536
          ⟨false, false, "", none, [⟨1, 1, "a", "", 9007199254740991⟩]⟩
          = .ok 9007199254740992
      ∧ Editor.nextOrder 65536
          ⟨false, false, "", none, [⟨1, 1, "a", "", -9007199254740992⟩]⟩
          = .ok (-9007199254740991)
      ∧ ∀ l ∈ [(⟨1, 1, "a", "", 3⟩ : Lesson), ⟨2, 1, "b", "", 1⟩],
          ∃ n, Editor.nextOrder 65536
              ⟨false, false, "", none, [⟨1, 1, "a", "", 3⟩, ⟨2, 1, "b", "", 1⟩]⟩ = .ok n
            ∧ l.order < n :=
  ⟨by decide, by decide, by decide, by decide,
    (nextOrder_eq_max_succ 65536
      ⟨false, false, "", none, [⟨1, 1, "a", "", 3⟩, ⟨2, 1, "b", "", 1⟩]⟩
      (by decide) (by decide)).2.2.1⟩

/-- A lesson sequence longer than the engine's argument limit makes the getter throw. -/
theorem nextOrder_rangeError (maxArguments : Nat) (s : Editor)
    (h : maxArguments < s.lessons.length) :
    s.nextOrder maxArguments = .error .rangeError := by
  unfold Editor.nextOrder
  cases hl : s.lessons with
  | nil => rw [hl] at h; exact absurd h (Nat.not_lt_zero _)
  | cons a ls =>
    have h' : maxArguments < ((a :: ls).map
        (fun l => if l.order ≠ 0 then l.order else 0)).length := by
      rw [List.length_map, ← hl]; exact h
    simp only [List.map_cons] at h' ⊢
    rw [if_pos h']

/-- Claim C6: when `upsertLesson` is called with no existing id and the remote create
succeeds with lesson `c`, the call returns normally and the local sequence afterwards is
the stable sort by `order` of `L` followed by `c`: it is sorted ascending by `order`, it
is a permutation of `L ++ [c]`, for every order value the lessons of that order appear
exactly as in `L ++ [c]` (so equal orders keep their relative position, `c` last), and it
is the only sequence with the first and third property. -/
theorem upsertLesson_create_stable_sort (adminApi : AdminApi) (courseId : Nat)
    (payload : LessonPayload) (s : Editor) (c : Lesson)
    (h : adminApi.createLesson courseId payload = .ok c) :
    (Editor.upsertLesson adminApi courseId none payload s).2 = .ok ()
      ∧ SortedByOrder (Editor.upsertLesson adminApi courseId none payload s).1.lessons
      ∧ (Editor.upsertLesson adminApi courseId none payload s).1.lessons.Perm (s.lessons ++ [c])
      ∧ (∀ k : Int,
          (Editor.upsertLesson adminApi courseId none payload s).1.lessons.filter
              (fun x => x.order == k)
            = (s.lessons ++ [c]).filter (fun x => x.order == k))
      ∧ (∀ R : List Lesson, SortedByOrder R →
          (∀ k : Int, R.filter (fun x => x.order == k)
            = (s.lessons ++ [c]).filter (fun x => x.order == k)) →
          R = (Editor.upsertLesson adminApi courseId none payload s).1.lessons) := by
  have hr : Editor.upsertLesson adminApi courseId none payload s
      = ({ s with lessons := jsSort compareOrder (s.lessons ++ [c]) }, .ok ()) := by
    unfold Editor.upsertLesson
    simp only [h]
  rw [hr]
  refine ⟨rfl, jsSort_sorted _, jsSort_perm _ _, fun k => jsSort_filter k _, ?_⟩
  intro R hR hf
  exact sorted_stable_unique R _ hR (jsSort_sorted _) (fun k => by rw [hf k, jsSort_filter])

/-- Witness for C6, the spec's example: `L = [{id:1, order:2}]` and a created
`{id:2, order:1}` give `[{id:2, order:1}, {id:1, order:2}]`. -/
theorem upsertLesson_create_stable_sort_witness :
    (Editor.upsertLesson
        ⟨fun _ => .error ⟨none, none⟩, fun _ _ => .ok ⟨2, 7, "b", "", 1⟩,
          fun _ _ => .error ⟨none, none⟩, fun _ => .error ⟨none, none⟩⟩
        7 none ⟨"b", "", 1⟩ ⟨false, false, "", none, [⟨1, 7, "a", "", 2⟩]⟩).1.lessons
      = [⟨2, 7, "b", "", 1⟩, ⟨1, 7, "a", "", 2⟩]
    ∧ SortedByOrder (Editor.upsertLesson
        ⟨fun _ => .error ⟨none, none⟩, fun _ _ => .ok ⟨2, 7, "b", "", 1⟩,
          fun _ _ => .error ⟨none, none⟩, fun _ => .error ⟨none, none⟩⟩
        7 none ⟨"b", "", 1⟩ ⟨false, false, "", none, [⟨1, 7, "a", "", 2⟩]⟩).1.lessons :=
  ⟨by decide,
    (upsertLesson_create_stable_sort
      ⟨fun _ => .error ⟨none, none⟩, fun _ _ => .ok ⟨2, 7, "b", "", 1⟩,
        fun _ _ => .error ⟨none, none⟩, fun _ => .error ⟨none, none⟩⟩
      7 ⟨"b", "", 1⟩ ⟨false, false, "", none, [⟨1, 7, "a", "", 2⟩]⟩ ⟨2, 7, "b", "", 1⟩ rfl).2.1⟩

/-- Claim C7: for every local sequence `L`, every present existing id (present in the
sense of the code's test `if (editingLessonId)`: a non-zero id) and every record `u`
returned by a successful remote update, `upsertLesson` returns normally and leaves the
local sequence equal to the sort by `order` (sorted, a permutation, stable) of `L'`,
where `L'` has the length of `L`, holds at the first position whose id equals the
existing id that entry with its fields overridden by those of `u` (fields missing from
`u` kept), and holds the entry of `L` at every other position; when no local entry has
that id, `L'` is `L` and the sequence keeps its length. -/
theorem upsertLesson_update_merges (adminApi : AdminApi) (courseId id : Nat)
    (payload : LessonPayload) (s : Editor) (u : LessonFields)
    (hpresent : truthyId (some id) = true)
    (h : adminApi.updateLesson id payload = .ok u) :
    ∃ L' : List Lesson,
      Editor.upsertLesson adminApi courseId (some id) payload s
          = ({ s with lessons := jsSort compareOrder L' }, .ok ())
        ∧ SortedByOrder (jsSort compareOrder L')
        ∧ (jsSort compareOrder L').Perm L'
        ∧ (∀ k : Int, (jsSort compareOrder L').filter (fun x => x.order == k)
            = L'.filter (fun x => x.order == k))
        ∧ L'.length = s.lessons.length
        ∧ (jsSort compareOrder L').length = s.lessons.length
        ∧ (∀ (i : Nat) (x : Lesson), s.lessons[i]? = some x →
            ((x.id = id ∧ (∀ j m, j < i → s.lessons[j]? = some m → m.id ≠ id)) →
                L'[i]? = some (spread x u))
            ∧ (¬ (x.id = id ∧ (∀ j m, j < i → s.lessons[j]? = some m → m.id ≠ id)) →
                L'[i]? = some x))
        ∧ (∀ x : Lesson,
            (spread x u).id = u.id.getD x.id
            ∧ (spread x u).course_id = u.course_id.getD x.course_id
            ∧ (spread x u).title = u.title.getD x.title
            ∧ (spread x u).content = u.content.getD x.content
            ∧ (spread x u).order = u.order.getD x.order)
        ∧ ((∀ x ∈ s.lessons, x.id ≠ id) → L' = s.lessons) := by
  refine ⟨Editor.mergeById id u s.lessons, ?_, jsSort_sorted _, jsSort_perm _ _,
    fun k => jsSort_filter k _, mergeById_length id u _, ?_, mergeById_getElem? id u _,
    fun x => ⟨rfl, rfl, rfl, rfl, rfl⟩, mergeById_of_absent id u _⟩
  · unfold Editor.upsertLesson
    simp only [hpresent, h, if_true]
  · rw [(jsSort_perm _ _).length_eq, mergeById_length]

/-- The id `0` is falsy in the test `if (editingLessonId)`: such a call takes the create
branch, exactly as a call with no id. -/
theorem upsertLesson_zero_id_creates (adminApi : AdminApi) (courseId : Nat)
    (payload : LessonPayload) (s : Editor) :
    Editor.upsertLesson adminApi courseId (some 0) payload s
      = Editor.upsertLesson adminApi courseId none payload s := by
  unfold Editor.upsertLesson
  simp [truthyId]

/-- Witness for C7: lessons with ids 1, 2, 2; the update of id 2 returns a new title and
order 0 only; the first entry with id 2 is merged and moves to the front, the second
entry with id 2 is untouched. -/
theorem upsertLesson_update_merges_witness :
    (Editor.upsertLesson
        ⟨fun _ => .error ⟨none, none⟩, fun _ _ => .error ⟨none, none⟩,
          fun _ _ => .ok ⟨none, none, some "new", none, some 0⟩, fun _ => .error ⟨none, none⟩⟩
        7 (some 2) ⟨"new", "", 0⟩
        ⟨false, false, "", none,
          [⟨1, 7, "a", "x", 1⟩, ⟨2, 7, "b", "y", 2⟩, ⟨2, 7, "c", "z", 3⟩]⟩).1.lessons
      = [⟨2, 7, "new", "y", 0⟩, ⟨1, 7, "a", "x", 1⟩, ⟨2, 7, "c", "z", 3⟩]
    ∧ ∃ L' : List Lesson,
        (Editor.upsertLesson
          ⟨fun _ => .error ⟨none, none⟩, fun _ _ => .error ⟨none, none⟩,
            fun _ _ => .ok ⟨none, none, some "new", none, some 0⟩, fun _ => .error ⟨none, none⟩⟩
          7 (some 2) ⟨"new", "", 0⟩
          ⟨false, false, "", none,
            [⟨1, 7, "a", "x", 1⟩, ⟨2, 7, "b", "y", 2⟩, ⟨2, 7, "c", "z", 3⟩]⟩).1.lessons
          = jsSort compareOrder L' ∧ L'.length = 3 :=
  ⟨by decide,
    (upsertLesson_update_merges
      ⟨fun _ => .error ⟨none, none⟩, fun _ _ => .error ⟨none, none⟩,
        fun _ _ => .ok ⟨none, none, some "new", none, some 0⟩, fun _ => .error ⟨none, none⟩⟩
      7 2 ⟨"new", "", 0⟩
      ⟨false, false, "", none,
        [⟨1, 7, "a", "x", 1⟩, ⟨2, 7, "b", "y", 2⟩, ⟨2, 7, "c", "z", 3⟩]⟩
      ⟨none, none, some "new", none, some 0⟩ (by decide) rfl).elim
      (fun L' hL' => ⟨L', by rw [hL'.1], hL'.2.2.2.2.1⟩)⟩

/-- Claim C8: `removeLesson(id)` is all-or-nothing on the local state: if the remote
delete fails, the failure is raised and the state is unchanged; if it succeeds, the call
returns normally and the local sequence is `L` without the entries whose id is `id`:
a subsequence of `L` (entries unchanged, relative order kept) that contains no entry with
that id and every other entry as often as `L` does. -/
theorem removeLesson_all_or_nothing (adminApi : AdminApi) (lessonId : Nat) (s : Editor) :
    (∀ e, adminApi.deleteLesson lessonId = .error e →
        Editor.removeLesson adminApi lessonId s = (s, .error e))
      ∧ (adminApi.deleteLesson lessonId = .ok () →
          (Editor.removeLesson adminApi lessonId s).2 = .ok ()
          ∧ (Editor.removeLesson adminApi lessonId s).1
              = { s with lessons := (Editor.removeLesson adminApi lessonId s).1.lessons }
          ∧ (Editor.removeLesson adminApi lessonId s).1.lessons.Sublist s.lessons
          ∧ (∀ x ∈ (Editor.removeLesson adminApi lessonId s).1.lessons, x.id ≠ lessonId)
          ∧ (∀ x : Lesson, x.id ≠ lessonId →
              (Editor.removeLesson adminApi lessonId s).1.lessons.count x = s.lessons.count x)) := by
  constructor
  · intro e he
    unfold Editor.removeLesson
    rw [he]
  · intro hok
    have hr : Editor.removeLesson adminApi lessonId s
        = ({ s with lessons := s.lessons.filter (fun l => l.id != lessonId) }, .ok ()) := by
      unfold Editor.removeLesson
      rw [hok]
    rw [hr]
    refine ⟨rfl, rfl, List.filter_sublist _, ?_, ?_⟩
    · intro x hx
      simpa using (List.mem_filter.1 hx).2
    · intro x hx
      simp only
      rw [List.count_filter]
      simpa using hx

/-- Witness for C8: removing id 2 from lessons with ids 1, 2, 3, 2, once with a failing
and once with a succeeding remote delete. -/
theorem removeLesson_all_or_nothing_witness :
    Editor.removeLesson
        ⟨fun _ => .error ⟨none, none⟩, fun _ _ => .error ⟨none, none⟩,
          fun _ _ => .error ⟨none, none⟩, fun _ => .error ⟨some ⟨500, none⟩, none⟩⟩
        2 ⟨false, false, "", none,
          [⟨1, 7, "a", "", 1⟩, ⟨2, 7, "b", "", 2⟩, ⟨3, 7, "c", "", 3⟩, ⟨2, 7, "d", "", 4⟩]⟩
      = (⟨false, false, "", none,
          [⟨1, 7, "a", "", 1⟩, ⟨2, 7, "b", "", 2⟩, ⟨3, 7, "c", "", 3⟩, ⟨2, 7, "d", "", 4⟩]⟩,
        .error ⟨some ⟨500, none⟩, none⟩)
    ∧ (Editor.removeLesson
        ⟨fun _ => .error ⟨none, none⟩, fun _ _ => .error ⟨none, none⟩,
          fun _ _ => .error ⟨none, none⟩, fun _ => .ok ()⟩
        2 ⟨false, false, "", none,
          [⟨1, 7, "a", "", 1⟩, ⟨2, 7, "b", "", 2⟩, ⟨3, 7, "c", "", 3⟩, ⟨2, 7, "d", "", 4⟩]⟩).1.lessons
      = [⟨1, 7, "a", "", 1⟩, ⟨3, 7, "c", "", 3⟩] :=
  ⟨(removeLesson_all_or_nothing
      ⟨fun _ => .error ⟨none, none⟩, fun _ _ => .error ⟨none, none⟩,
        fun _ _ => .error ⟨none, none⟩, fun _ => .error ⟨some ⟨500, none⟩, none⟩⟩
      2 ⟨false, false, "", none,
        [⟨1, 7, "a", "", 1⟩, ⟨2, 7, "b", "", 2⟩, ⟨3, 7, "c", "", 3⟩, ⟨2, 7, "d", "", 4⟩]⟩).1 _ rfl,
    by decide⟩

/-- Sortedness is preserved by every call, whatever the backend answers. -/
theorem step_sorted (courseId : Nat) (s : Editor) (c : AdminApi × Call)
    (hs : SortedByOrder s.lessons) : SortedByOrder (Editor.step courseId s c).lessons := by
  obtain ⟨api, call⟩ := c
  cases call with
  | load =>
    simp only [Editor.step, Editor.load]
    cases api.getCourse courseId with
    | error e => exact hs
    | ok d =>
      cases hl : d.lessons with
      | none => simp only [hl]; exact List.Pairwise.nil
      | some ls => simp only [hl]; exact jsSort_sorted ls
  | upsertLesson editingLessonId payload =>
    simp only [Editor.step, Editor.upsertLesson]
    have hcreate : SortedByOrder
        (match api.createLesson courseId payload with
          | .error e => (s, (Except.error e : Except Failure Unit))
          | .ok created =>
            ({ s with lessons := jsSort compareOrder (s.lessons ++ [created]) }, .ok ())).1.lessons := by
      cases api.createLesson courseId payload with
      | error e => exact hs
      | ok created => exact jsSort_sorted _
    cases editingLessonId with
    | none => exact hcreate
    | some id =>
      by_cases ht : truthyId (some id) = true
      · simp only [ht, if_true]
        cases api.updateLesson id payload with
        | error e => exact hs
        | ok updated => exact jsSort_sorted _
      · simp only [ht]
        exact hcreate
  | removeLesson lessonId =>
    simp only [Editor.step, Editor.removeLesson]
    cases api.deleteLesson lessonId with
    | error e => exact hs
    | ok _ => exact List.Pairwise.filter _ hs

theorem foldl_step_sorted (courseId : Nat) (calls : List (AdminApi × Call)) (s : Editor)
    (hs : SortedByOrder s.lessons) :
    SortedByOrder (calls.foldl (Editor.step courseId) s).lessons := by
  induction calls generalizing s with
  | nil => exact hs
  | cons c calls ih => exact ih _ (step_sorted courseId s c hs)

/-- Claim C9: starting from the initial state, after any finite sequence of `load`,
`upsertLesson` (create or update branch) and `removeLesson` calls, each succeeding or
failing as the backend decides, the local lesson sequence is sorted ascending by
`order`. -/
theorem run_lessons_sorted (courseId : Nat) (calls : List (AdminApi × Call)) :
    SortedByOrder (Editor.run courseId calls).lessons :=
  foldl_step_sorted courseId calls Editor.init (by simp [Editor.init, SortedByOrder])

/-- Witness for C9: a load of lessons with orders 3, 1, a create of order 2, a failed
update, a successful update of lesson 10 to order 5 and a removal of lesson 11. -/
theorem run_lessons_sorted_witness :
    (Editor.run 7
        [ (⟨fun _ => .ok ⟨7, some "t", none, none,
              some [⟨10, 7, "a", "", 3⟩, ⟨11, 7, "b", "", 1⟩]⟩,
            fun _ _ => .error ⟨none, none⟩, fun _ _ => .error ⟨none, none⟩,
            fun _ => .error ⟨none, none⟩⟩, .load),
          (⟨fun _ => .error ⟨none, none⟩, fun _ _ => .ok ⟨12, 7, "c", "", 2⟩,
            fun _ _ => .error ⟨none, none⟩, fun _ => .error ⟨none, none⟩⟩,
            .upsertLesson none ⟨"c", "", 2⟩),
          (⟨fun _ => .error ⟨none, none⟩, fun _ _ => .error ⟨none, none⟩,
            fun _ _ => .error ⟨none, none⟩, fun _ => .error ⟨none, none⟩⟩,
            .upsertLesson (some 12) ⟨"c", "", 9⟩),
          (⟨fun _ => .error ⟨none, none⟩, fun _ _ => .error ⟨none, none⟩,
            fun _ _ => .ok ⟨some 12, some 7, some "c", some "", some 5⟩,
            fun _ => .error ⟨none, none⟩⟩,
            .upsertLesson (some 12) ⟨"c", "", 5⟩),
          (⟨fun _ => .error ⟨none, none⟩, fun _ _ => .error ⟨none, none⟩,
            fun _ _ => .error ⟨none, none⟩, fun _ => .ok ()⟩,
            .removeLesson 11) ]).lessons
      = [⟨10, 7, "a", "", 3⟩, ⟨12, 7, "c", "", 5⟩]
    ∧ SortedByOrder [⟨10, 7, "a", "", 3⟩, ⟨12, 7, "c", "", 5⟩] := by
  have h : (Editor.run 7
        [ (⟨fun _ => .ok ⟨7, some "t", none, none,
              some [⟨10, 7, "a", "", 3⟩, ⟨11, 7, "b", "", 1⟩]⟩,
            fun _ _ => .error ⟨none, none⟩, fun _ _ => .error ⟨none, none⟩,
            fun _ => .error ⟨none, none⟩⟩, .load),
          (⟨fun _ => .error ⟨none, none⟩, fun _ _ => .ok ⟨12, 7, "c", "", 2⟩,
            fun _ _ => .error ⟨none, none⟩, fun _ => .error ⟨none, none⟩⟩,
            .upsertLesson none ⟨"c", "", 2⟩),
          (⟨fun _ => .error ⟨none, none⟩, fun _ _ => .error ⟨none, none⟩,
            fun _ _ => .error ⟨none, none⟩, fun _ => .error ⟨none, none⟩⟩,
            .upsertLesson (some 12) ⟨"c", "", 9⟩),
          (⟨fun _ => .error ⟨none, none⟩, fun _ _ => .error ⟨none, none⟩,
            fun _ _ => .ok ⟨some 12, some 7, some "c", some "", some 5⟩,
            fun _ => .error ⟨none, none⟩⟩,
            .upsertLesson (some 12) ⟨"c", "", 5⟩),
          (⟨fun _ => .error ⟨none, none⟩, fun _ _ => .error ⟨none, none⟩,
            fun _ _ => .error ⟨none, none⟩, fun _ => .ok ()⟩,
            .removeLesson 11) ]).lessons
      = [⟨10, 7, "a", "", 3⟩, ⟨12, 7, "c", "", 5⟩] := by decide
  exact ⟨h, h ▸ run_lessons_sorted 7 _⟩

end Edusolve
